import Mathlib

/-!
# iCE40 cell helpers (ice40/cells.h)

A shallow embedding of the cell classifier of ice40/cells.h (is_lut, is_ff)
and of the two operations the header declares (create_ice_cell, dff_to_lc),
with the properties of the specification stated and proved over it.
-/

namespace Ice40

/-- Modelled from the spec: the identifier type, whose declaration (nextpnr.h)
is missing from the sources. Identifiers name cells, types, ports and
parameters and are compared by value; the default-constructed identifier is
the empty one. -/
abbrev IdString := String

/-- Modelled from the spec: a net, whose declaration is missing from the
sources; a port refers to the net it is connected to by the net's name. -/
abbrev NetId := String

/-- Modelled from the spec: the cell record, whose declaration (nextpnr.h) is
missing from the sources, with the attributes section 3 gives it: a name, a
type, a mapping from port name to net (a port without an entry is
disconnected) and a mapping from parameter name to a bit-vector value, held
as the number it denotes. is_lut and is_ff read the type field only. -/
structure CellInfo where
  name : IdString
  type : IdString
  ports : List (IdString × NetId)
  params : List (IdString × Nat)
deriving DecidableEq, Repr

/-- Return true if a cell is a LUT. -/
def is_lut (cell : CellInfo) : Bool := cell.type == "SB_LUT4"

/-- Return true if a cell is a flipflop. -/
def is_ff (cell : CellInfo) : Bool :=
  cell.type == "SB_DFF" || cell.type == "SB_DFFE" ||
  cell.type == "SB_DFFSR" || cell.type == "SB_DFFR" ||
  cell.type == "SB_DFFSS" || cell.type == "SB_DFFS" ||
  cell.type == "SB_DFFESR" || cell.type == "SB_DFFER" ||
  cell.type == "SB_DFFESS" || cell.type == "SB_DFFES" ||
  cell.type == "SB_DFFN" || cell.type == "SB_DFFNE" ||
  cell.type == "SB_DFFNSR" || cell.type == "SB_DFFNR" ||
  cell.type == "SB_DFFNSS" || cell.type == "SB_DFFNS" ||
  cell.type == "SB_DFFNESR" || cell.type == "SB_DFFNER" ||
  cell.type == "SB_DFFNESS" || cell.type == "SB_DFFNES"

/-- The twenty type names is_ff compares against, in the order of the source. -/
def ffTypeNames : List IdString :=
  ["SB_DFF", "SB_DFFE", "SB_DFFSR", "SB_DFFR", "SB_DFFSS", "SB_DFFS",
   "SB_DFFESR", "SB_DFFER", "SB_DFFESS", "SB_DFFES",
   "SB_DFFN", "SB_DFFNE", "SB_DFFNSR", "SB_DFFNR", "SB_DFFNSS", "SB_DFFNS",
   "SB_DFFNESR", "SB_DFFNER", "SB_DFFNESS", "SB_DFFNES"]

/-- The type names built as SB_DFF, then an optional N (clock edge), then an
optional E (clock enable), then one of the five reset/set suffixes. -/
def ffProductNames : List IdString :=
  (["", "N"] : List String).flatMap fun n =>
    (["", "E"] : List String).flatMap fun e =>
      (["", "SR", "R", "SS", "S"] : List String).map fun s => "SB_DFF" ++ n ++ e ++ s

/-- A call of a classifier through its pointer-to-const argument, as a state
transformer on the pointed-to cell: the answer, and the cell as it is after
the call. The bodies of is_lut and is_ff only read the type field. -/
def callOnCell (f : CellInfo → Bool) (cell : CellInfo) : Bool × CellInfo :=
  (f cell, cell)

/-! ## The cell factory (create_ice_cell)

The header declares create_ice_cell; its body is not part of the sources at
hand, so the factory follows section 4.2 of the specification. -/

/-- Modelled from the spec: the design graph, which is missing from the
sources. It owns the cells and the counter used for automatic names. -/
structure Design where
  cells : List CellInfo
  auto_idx : Nat
deriving DecidableEq, Repr

/-- Modelled from the spec: the failure of the factory (a naming collision);
the error type is missing from the sources. -/
inductive CreateError where
  | namingCollision
deriving DecidableEq, Repr

/-- Modelled from the spec: the names of the cells registered in a design
(the design graph is missing from the sources). -/
def Design.cellNames (d : Design) : List IdString := d.cells.map fun c => c.name

/-- Modelled from the spec: the automatic name, missing from the sources; it
is derived from the type plus a counter value. -/
def autoName (type : IdString) (k : Nat) : IdString := type ++ "_" ++ toString k

/-- The number a list of decimal digit characters denotes. -/
def decimalValue (ds : List Char) : Nat :=
  ds.foldl (fun acc c => acc * 10 + (c.toNat - 48)) 0

/-- Modelled from the spec: the counter value used for the next automatic
name, missing from the sources. The counter only increases: starting at k it
steps over the values whose name is taken, for at most fuel steps. -/
def freshIdx (taken : List IdString) (type : IdString) : Nat → Nat → Nat
  | 0, k => k
  | fuel + 1, k =>
    if autoName type k ∈ taken then freshIdx taken type fuel (k + 1) else k

/-- Modelled from the spec: the body of create_ice_cell, of which the sources
hold the declaration only. With the default (empty) name a name unique within
the design is generated and the counter moves past it; a name that already
exists in the design is a naming collision; otherwise the new cell is
registered with its ports disconnected and its parameters at the defaults of
its type (the table of defaults is an argument). -/
def create_ice_cell (defaults : IdString → List (IdString × Nat)) (design : Design)
    (type : IdString) (name : IdString := "") : Except CreateError (CellInfo × Design) :=
  let idx := freshIdx design.cellNames type (design.cells.length + 1) design.auto_idx
  let cellName := if name == "" then autoName type idx else name
  let counter := if name == "" then idx + 1 else design.auto_idx
  if cellName ∈ design.cellNames then
    .error .namingCollision
  else
    let cell : CellInfo :=
      { name := cellName, type := type, ports := [], params := defaults type }
    .ok (cell, { cells := cell :: design.cells, auto_idx := counter })

/-! ## Flip-flop fusion (dff_to_lc)

The header declares dff_to_lc; its body is not part of the sources at hand,
so the operation follows section 4.3 of the specification. -/

/-- Modelled from the spec: reading a port of a cell (a primitive of the design
graph, missing from the sources): the net the port is connected to, none when
it is disconnected. -/
def CellInfo.conn (c : CellInfo) (port : IdString) : Option NetId := c.ports.lookup port

/-- Modelled from the spec: reading a parameter of a cell (a primitive of the
design graph, missing from the sources), none when it is not set. -/
def CellInfo.param (c : CellInfo) (key : IdString) : Option Nat := c.params.lookup key

/-- Modelled from the spec: port connect and disconnect (a primitive of the
design graph, missing from the sources): connect a port of the cell to a net,
or disconnect it (none). -/
def CellInfo.connect (c : CellInfo) (port : IdString) (net : Option NetId) : CellInfo :=
  let others := c.ports.filter fun e => e.1 != port
  { c with ports := match net with
      | some n => (port, n) :: others
      | none => others }

/-- Modelled from the spec: parameter set (a primitive of the design graph,
missing from the sources). -/
def CellInfo.setParam (c : CellInfo) (key : IdString) (v : Nat) : CellInfo :=
  { c with params := (key, v) :: c.params.filter fun e => e.1 != key }

/-- Modelled from the spec: the clock edge of a flip-flop variant. -/
inductive EdgePolarity where
  | rising
  | falling
deriving DecidableEq, Repr

/-- Modelled from the spec: whether a variant has a reset (or set), and of
which kind. -/
inductive ControlKind where
  | absent
  | sync
  | async
deriving DecidableEq, Repr

/-- Modelled from the spec: the active level of a reset or set. -/
inductive Polarity where
  | high
  | low
deriving DecidableEq, Repr

/-- Modelled from the spec: the flip-flop variant record decoded from a cell
type (section 3), missing from the sources. -/
structure FFVariant where
  edge : EdgePolarity
  reset : ControlKind
  resetPolarity : Polarity
  set : ControlKind
  setPolarity : Polarity
deriving DecidableEq, Repr

/-- Modelled from the spec: what the specification leaves to the target
architecture and the sources do not hold: the decoding of a flip-flop type
into its variant and the always-enabled constant net. -/
structure FusionArch where
  decode : IdString → FFVariant
  alwaysEnabled : NetId

/-- Modelled from the spec: the hard failures of the fusion preconditions;
the error type is missing from the sources. -/
inductive FuseError where
  | donorNotFlipFlop
  | targetNotLogicCell
deriving DecidableEq, Repr

/-- Modelled from the spec: the row of the truth table of a 4-input lookup
table that the inputs select, the first input being the least significant;
the lookup-table semantics is missing from the sources. -/
def lutIndex (i0 i1 i2 i3 : Bool) : Nat :=
  i0.toNat + 2 * i1.toNat + 4 * i2.toNat + 8 * i3.toNat

/-- Modelled from the spec: the output of a 4-input lookup table whose truth
table is the 16-bit value init (glossary: a boolean function of the inputs
given by a truth-table configuration); missing from the sources. -/
def lutEval (init : Nat) (i0 i1 i2 i3 : Bool) : Bool :=
  init.testBit (lutIndex i0 i1 i2 i3)

/-- Modelled from the spec: the 16-bit truth table that configures a lookup
table to compute a given function of its four inputs; missing from the
sources. -/
def lutInitOf (f : Bool → Bool → Bool → Bool → Bool) : Nat :=
  ((List.range 16).filter fun k =>
      f (k.testBit 0) (k.testBit 1) (k.testBit 2) (k.testBit 3)).foldl
    (fun acc k => acc + 2 ^ k) 0

/-- Modelled from the spec: the fixed truth table "identity on input 0"; its
value is missing from the sources. -/
def passThruInit : Nat := lutInitOf fun i0 _ _ _ => i0

/-- Modelled from the spec: the clock edge polarity bit of the target; the
encoding is missing from the sources. -/
def edgeBit : EdgePolarity → Nat
  | .rising => 0
  | .falling => 1

/-- Modelled from the spec: the reset-enable or set-enable bit of the target,
off when the variant has no such control; the encoding is missing from the
sources. -/
def enableBit : ControlKind → Nat
  | .absent => 0
  | .sync => 1
  | .async => 1

/-- Modelled from the spec: the reset-polarity or set-polarity bit of the
target; a control the variant does not use gets the neutral value 0. The
encoding is missing from the sources. -/
def polarityBit : ControlKind → Polarity → Nat
  | .absent, _ => 0
  | _, .low => 0
  | _, .high => 1

/-- Modelled from the spec: the net given to the reset or set port of the
target (step 3 of section 4.3, missing from the sources): the donor's when the
variant uses the control, none (disconnected) otherwise. -/
def controlNet (kind : ControlKind) (net : Option NetId) : Option NetId :=
  match kind with
  | .absent => none
  | _ => net

/-- Modelled from the spec: the body of dff_to_lc, of which the sources hold
the declaration only (with the comment that the LUT is configured as pass
through and D connected to I0 when pass_thru_lut is true, and D is ignored
otherwise). It follows the five steps of section 4.3; a donor that is not a
flip-flop or a target that is not an ICESTORM_LC is a hard failure. The
result is the target after the call; the donor is only read. -/
def dff_to_lc (arch : FusionArch) (dff lc : CellInfo) (pass_thru_lut : Bool := false) :
    Except FuseError CellInfo :=
  if !is_ff dff then .error .donorNotFlipFlop
  else if lc.type != "ICESTORM_LC" then .error .targetNotLogicCell
  else
    -- 1. decode the donor's variant
    let v := arch.decode dff.type
    -- 2. configuration parameters
    let lc := lc.setParam "CLOCK_EDGE_POLARITY" (edgeBit v.edge)
    let lc := lc.setParam "RESET_ENABLE" (enableBit v.reset)
    let lc := lc.setParam "RESET_POLARITY" (polarityBit v.reset v.resetPolarity)
    let lc := lc.setParam "SET_ENABLE" (enableBit v.set)
    let lc := lc.setParam "SET_POLARITY" (polarityBit v.set v.setPolarity)
    -- 3. control ports
    let lc := lc.connect "CLK" (dff.conn "C")
    let lc := lc.connect "CEN" (some ((dff.conn "E").getD arch.alwaysEnabled))
    let lc := lc.connect "RESET" (controlNet v.reset (dff.conn "R"))
    let lc := lc.connect "SET" (controlNet v.set (dff.conn "S"))
    -- 4. data path
    let lc :=
      if pass_thru_lut then (lc.setParam "LUT_INIT" passThruInit).connect "I0" (dff.conn "D")
      else lc
    -- 5. registered output
    .ok (lc.connect "O" (dff.conn "Q"))

/-! ## Properties -/

/-- is_ff unfolded: the disjunction of the twenty comparisons is membership
in ffTypeNames. -/
theorem is_ff_iff_mem (c : CellInfo) : is_ff c = true ↔ c.type ∈ ffTypeNames := by
  simp only [is_ff, ffTypeNames, Bool.or_eq_true, beq_iff_eq, List.mem_cons,
    List.mem_singleton, List.not_mem_nil, or_false, or_assoc]

/-! ### Automatic names -/

/-- A decimal digit character denotes its digit. -/
theorem digitChar_value (d : Nat) (h : d < 10) : (Nat.digitChar d).toNat - 48 = d := by
  interval_cases d <;> rfl

/-- The digits produced for n denote n. -/
theorem toDigitsCore_value (fuel : Nat) : ∀ (n : Nat) (ds : List Char), n < fuel →
    ∃ xs, Nat.toDigitsCore 10 fuel n ds = xs ++ ds ∧ decimalValue xs = n := by
  induction fuel with
  | zero => intro n ds h; omega
  | succ fuel ih =>
    intro n ds h
    unfold Nat.toDigitsCore
    by_cases h0 : n / 10 = 0
    · refine ⟨[Nat.digitChar (n % 10)], by simp [h0], ?_⟩
      have hn : n < 10 := by omega
      simp [decimalValue, digitChar_value (n % 10) (Nat.mod_lt _ (by decide))]
      omega
    · obtain ⟨xs, hxs, hv⟩ := ih (n / 10) (Nat.digitChar (n % 10) :: ds) (by omega)
      refine ⟨xs ++ [Nat.digitChar (n % 10)], by simp [h0, hxs], ?_⟩
      simp only [decimalValue] at hv
      simp only [decimalValue, List.foldl_append, List.foldl_cons, List.foldl_nil, hv,
        digitChar_value (n % 10) (Nat.mod_lt _ (by decide))]
      omega

/-- Reading back the decimal text of a number gives the number. -/
theorem decimalValue_repr (n : Nat) : decimalValue (toString n).data = n := by
  obtain ⟨xs, hxs, hv⟩ := toDigitsCore_value (n + 1) n [] (Nat.lt_succ_self n)
  have : (toString n).data = xs := by
    show (Nat.repr n).data = xs
    simp [Nat.repr, Nat.toDigits, hxs, List.asString]
  rw [this, hv]

/-- Two counter values give two automatic names. -/
theorem autoName_injective (type : IdString) {j k : Nat}
    (h : autoName type j = autoName type k) : j = k := by
  have hd := congrArg String.data h
  simp only [autoName, String.data_append, List.append_assoc] at hd
  have h2 := List.append_cancel_left (List.append_cancel_left hd)
  rw [← decimalValue_repr j, ← decimalValue_repr k, h2]

/-- An automatic name is not the empty identifier. -/
theorem autoName_ne_empty (type : IdString) (k : Nat) : autoName type k ≠ "" := by
  intro h
  have hd := congrArg String.length h
  simp only [autoName, String.length_append] at hd
  have h1 : "_".length = 1 := by decide
  have h0 : "".length = 0 := by decide
  omega

/-- freshIdx stops at a free name, unless every one of the fuel names from
k on is taken. -/
theorem freshIdx_taken (taken : List IdString) (type : IdString) (fuel : Nat) :
    ∀ k, autoName type (freshIdx taken type fuel k) ∈ taken →
      ∀ j, k ≤ j → j < k + fuel → autoName type j ∈ taken := by
  induction fuel with
  | zero => intro k _ j h1 h2; omega
  | succ fuel ih =>
    intro k h j h1 h2
    unfold freshIdx at h
    by_cases hk : autoName type k ∈ taken
    · rw [if_pos hk] at h
      by_cases hj : j = k
      · rw [hj]; exact hk
      · exact ih (k + 1) h j (by omega) (by omega)
    · rw [if_neg hk] at h
      exact absurd h hk

/-- With more fuel than taken names, freshIdx yields a free name. -/
theorem freshIdx_free (taken : List IdString) (type : IdString) (k : Nat) :
    autoName type (freshIdx taken type (taken.length + 1) k) ∉ taken := by
  intro h
  have hall := freshIdx_taken taken type (taken.length + 1) k h
  have hnd : ((List.range (taken.length + 1)).map fun i => autoName type (k + i)).Nodup :=
    List.Nodup.map_on (fun x _ y _ hxy => by have := autoName_injective type hxy; omega)
      (List.nodup_range _)
  have hsub : ((List.range (taken.length + 1)).map fun i => autoName type (k + i)) ⊆ taken := by
    intro x hx
    obtain ⟨i, hi, rfl⟩ := List.mem_map.1 hx
    exact hall (k + i) (by omega) (by have := List.mem_range.1 hi; omega)
  have hle := (List.subperm_of_subset hnd hsub).length_le
  simp at hle

/-- What create_ice_cell does when the name is left at its default. -/
theorem create_ice_cell_auto (defaults : IdString → List (IdString × Nat)) (d : Design)
    (type : IdString) :
    ∃ k, autoName type k ∉ d.cellNames ∧
      create_ice_cell defaults d type "" =
        .ok (⟨autoName type k, type, [], defaults type⟩,
             ⟨⟨autoName type k, type, [], defaults type⟩ :: d.cells, k + 1⟩) := by
  have hlen : d.cellNames.length = d.cells.length := by simp [Design.cellNames]
  have hfree := freshIdx_free d.cellNames type d.auto_idx
  rw [hlen] at hfree
  refine ⟨freshIdx d.cellNames type (d.cells.length + 1) d.auto_idx, hfree, ?_⟩
  simp only [create_ice_cell, beq_self_eq_true, if_true, if_neg hfree]

/-! ### Ports and parameters -/

/-- Looking a key up after the entries of another key were filtered out. -/
theorem lookup_filter_ne {β : Type} (l : List (IdString × β)) (p q : IdString) :
    (l.filter fun e => e.1 != p).lookup q = if q = p then none else l.lookup q := by
  induction l with
  | nil => simp
  | cons e l ih =>
    obtain ⟨a, b⟩ := e
    by_cases hap : a = p
    · subst hap
      by_cases hq : q = a
      · subst hq; simp [List.filter_cons, ih]
      · have : (q == a) = false := by simpa using hq
        simp [List.filter_cons, ih, hq, List.lookup_cons, this]
    · have hne : (a != p) = true := by simpa using hap
      by_cases hq : q = a
      · subst hq; simp [List.filter_cons, hne, hap]
      · have : (q == a) = false := by simpa using hq
        simp [List.filter_cons, hne, List.lookup_cons, this, ih]

/-- The connection of a port after a connect. -/
theorem conn_connect (c : CellInfo) (p q : IdString) (net : Option NetId) :
    (c.connect p net).conn q = if q = p then net else c.conn q := by
  cases net with
  | none => simp [CellInfo.connect, CellInfo.conn, lookup_filter_ne]
  | some n =>
    by_cases hq : q = p
    · subst hq; simp [CellInfo.connect, CellInfo.conn]
    · have : (q == p) = false := by simpa using hq
      simp [CellInfo.connect, CellInfo.conn, List.lookup_cons, this, lookup_filter_ne, hq]

/-- A connect leaves the parameters alone. -/
theorem param_connect (c : CellInfo) (p k : IdString) (net : Option NetId) :
    (c.connect p net).param k = c.param k := rfl

/-- Setting a parameter leaves the ports alone. -/
theorem conn_setParam (c : CellInfo) (k q : IdString) (v : Nat) :
    (c.setParam k v).conn q = c.conn q := rfl

/-- The value of a parameter after a setParam. -/
theorem param_setParam (c : CellInfo) (k q : IdString) (v : Nat) :
    (c.setParam k v).param q = if q = k then some v else c.param q := by
  by_cases hq : q = k
  · subst hq; simp [CellInfo.setParam, CellInfo.param]
  · have : (q == k) = false := by simpa using hq
    simp [CellInfo.setParam, CellInfo.param, List.lookup_cons, this, lookup_filter_ne, hq]

/-- C1: is_ff is true exactly on the cells whose type is one of the twenty
SB_DFF names; a different case, a proper prefix, an extension and the empty
type are not flip-flops. -/
theorem is_ff_iff_type_in_vocabulary :
    (∀ c : CellInfo, is_ff c = true ↔
      c.type ∈ (["SB_DFF", "SB_DFFE", "SB_DFFSR", "SB_DFFR", "SB_DFFSS", "SB_DFFS",
        "SB_DFFESR", "SB_DFFER", "SB_DFFESS", "SB_DFFES",
        "SB_DFFN", "SB_DFFNE", "SB_DFFNSR", "SB_DFFNR", "SB_DFFNSS", "SB_DFFNS",
        "SB_DFFNESR", "SB_DFFNER", "SB_DFFNESS", "SB_DFFNES"] : List IdString)) ∧
    (∀ (name : IdString) (ports : List (IdString × NetId)) (params : List (IdString × Nat)),
      is_ff ⟨name, "sb_dff", ports, params⟩ = false ∧
      is_ff ⟨name, "SB_DF", ports, params⟩ = false ∧
      is_ff ⟨name, "SB_DFFX", ports, params⟩ = false ∧
      is_ff ⟨name, "", ports, params⟩ = false) := by
  refine ⟨fun c => is_ff_iff_mem c, fun name ports params => ?_⟩
  refine ⟨?_, ?_, ?_, ?_⟩ <;> simp only [is_ff] <;> decide

/-- C2: is_lut is true exactly on the cells whose type equals SB_LUT4. -/
theorem is_lut_iff_type_eq (c : CellInfo) : is_lut c = true ↔ c.type = "SB_LUT4" := by
  simp only [is_lut, beq_iff_eq]

/-- C3: is_ff is true on a cell of each of the twenty flip-flop types, and
false on a cell of type SB_LUT4 and on a cell of type ICESTORM_LC. -/
theorem is_ff_on_vocabulary_lut_and_lc (c : CellInfo) :
    (c.type ∈ ffTypeNames → is_ff c = true) ∧
    (c.type = "SB_LUT4" → is_ff c = false) ∧
    (c.type = "ICESTORM_LC" → is_ff c = false) := by
  refine ⟨fun h => (is_ff_iff_mem c).2 h, fun h => ?_, fun h => ?_⟩
  · simp only [is_ff, h]; decide
  · simp only [is_ff, h]; decide

/-- Witness of C3: one flip-flop cell, one LUT cell and one logic cell. -/
theorem is_ff_on_vocabulary_lut_and_lc_witness :
    is_ff ⟨"ff0", "SB_DFFNESR", [("D", "n1")], []⟩ = true ∧
    is_ff ⟨"lut0", "SB_LUT4", [], [("LUT_INIT", 2)]⟩ = false ∧
    is_ff ⟨"lc0", "ICESTORM_LC", [], []⟩ = false :=
  ⟨(is_ff_on_vocabulary_lut_and_lc ⟨"ff0", "SB_DFFNESR", [("D", "n1")], []⟩).1 (by decide),
   (is_ff_on_vocabulary_lut_and_lc ⟨"lut0", "SB_LUT4", [], [("LUT_INIT", 2)]⟩).2.1 rfl,
   (is_ff_on_vocabulary_lut_and_lc ⟨"lc0", "ICESTORM_LC", [], []⟩).2.2 rfl⟩

/-- C4: is_lut and is_ff give a boolean on every cell, and on a cell whose
type is neither SB_LUT4 nor one of the twenty flip-flop names both give
false. -/
theorem classification_total (c : CellInfo) :
    (∃ b : Bool, is_lut c = b) ∧ (∃ b : Bool, is_ff c = b) ∧
    (c.type ≠ "SB_LUT4" → c.type ∉ ffTypeNames → is_lut c = false ∧ is_ff c = false) := by
  refine ⟨⟨_, rfl⟩, ⟨_, rfl⟩, fun hl hf => ⟨?_, ?_⟩⟩
  · cases h : is_lut c with
    | false => rfl
    | true => exact absurd (by simpa [is_lut] using h) hl
  · cases h : is_ff c with
    | false => rfl
    | true => exact absurd ((is_ff_iff_mem c).1 h) hf

/-- Witness of C4: a cell with the default (empty) type identifier. -/
theorem classification_total_witness :
    is_lut ⟨"c0", "", [], []⟩ = false ∧ is_ff ⟨"c0", "", [], []⟩ = false :=
  (classification_total ⟨"c0", "", [], []⟩).2.2 (by decide) (by decide)

/-- C5: the twenty names is_ff compares against are pairwise distinct, and
the set of type names on which is_ff is true has exactly twenty elements. -/
theorem is_ff_vocabulary_card :
    ffTypeNames.length = 20 ∧ ffTypeNames.Nodup ∧
    (∀ c : CellInfo, is_ff c = true ↔ c.type ∈ ffTypeNames) ∧
    Set.ncard {t : IdString | ∃ c : CellInfo, c.type = t ∧ is_ff c = true} = 20 := by
  have hnd : ffTypeNames.Nodup := by decide
  refine ⟨rfl, hnd, is_ff_iff_mem, ?_⟩
  have hset : {t : IdString | ∃ c : CellInfo, c.type = t ∧ is_ff c = true}
      = (↑ffTypeNames.toFinset : Set IdString) := by
    ext t
    simp only [Set.mem_setOf_eq, Finset.mem_coe, List.mem_toFinset]
    constructor
    · rintro ⟨c, rfl, h⟩
      exact (is_ff_iff_mem c).1 h
    · intro h
      exact ⟨⟨"", t, [], []⟩, rfl, (is_ff_iff_mem _).2 h⟩
  rw [hset, Set.ncard_coe_Finset, List.toFinset_card_of_nodup hnd]
  rfl

/-- C6: two cells of equal type get the same answer from is_lut and the same
answer from is_ff, whatever their names, ports and parameters; and a call of
either predicate leaves the cell as it was. -/
theorem classification_depends_on_type_only (c₁ c₂ : CellInfo) (h : c₁.type = c₂.type) :
    is_lut c₁ = is_lut c₂ ∧ is_ff c₁ = is_ff c₂ ∧
    (callOnCell is_lut c₁).2 = c₁ ∧ (callOnCell is_ff c₁).2 = c₁ := by
  refine ⟨?_, ?_, rfl, rfl⟩
  · simp only [is_lut, h]
  · simp only [is_ff, h]

/-- Witness of C6: two flip-flop cells that differ in name, ports and
parameters. -/
theorem classification_depends_on_type_only_witness :
    is_lut ⟨"a", "SB_DFFE", [("D", "n1")], []⟩ = is_lut ⟨"b", "SB_DFFE", [], [("X", 1)]⟩ ∧
    is_ff ⟨"a", "SB_DFFE", [("D", "n1")], []⟩ = is_ff ⟨"b", "SB_DFFE", [], [("X", 1)]⟩ ∧
    (callOnCell is_lut ⟨"a", "SB_DFFE", [("D", "n1")], []⟩).2 = ⟨"a", "SB_DFFE", [("D", "n1")], []⟩ ∧
    (callOnCell is_ff ⟨"a", "SB_DFFE", [("D", "n1")], []⟩).2 = ⟨"a", "SB_DFFE", [("D", "n1")], []⟩ :=
  classification_depends_on_type_only ⟨"a", "SB_DFFE", [("D", "n1")], []⟩
    ⟨"b", "SB_DFFE", [], [("X", 1)]⟩ rfl

/-- C9: no cell is classified both as a LUT and as a flip-flop. -/
theorem is_lut_is_ff_exclusive (c : CellInfo) : ¬ (is_lut c = true ∧ is_ff c = true) := by
  rintro ⟨hl, hf⟩
  have ht : c.type = "SB_LUT4" := by simpa [is_lut] using hl
  have hm : c.type ∈ ffTypeNames := (is_ff_iff_mem c).1 hf
  rw [ht] at hm
  exact absurd hm (by decide)

/-- C10: is_ff is true on a type exactly when the type is SB_DFF followed by
an optional N, an optional E and one of the suffixes empty, SR, R, SS, S; the
twenty combinations are pairwise distinct and all accepted, so acceptance is
kept when the edge or the clock enable is flipped. -/
theorem is_ff_vocabulary_is_product :
    (∀ c : CellInfo, is_ff c = true ↔
      ∃ n ∈ (["", "N"] : List String), ∃ e ∈ (["", "E"] : List String),
        ∃ s ∈ (["", "SR", "R", "SS", "S"] : List String),
          c.type = "SB_DFF" ++ n ++ e ++ s) ∧
    ffProductNames.length = 20 ∧ ffProductNames.Nodup ∧
    (∀ c : CellInfo, c.type ∈ ffProductNames → is_ff c = true) ∧
    (∀ (c c2 : CellInfo),
      ∀ n ∈ (["", "N"] : List String), ∀ e ∈ (["", "E"] : List String),
      ∀ n2 ∈ (["", "N"] : List String), ∀ e2 ∈ (["", "E"] : List String),
      ∀ s ∈ (["", "SR", "R", "SS", "S"] : List String),
        c.type = "SB_DFF" ++ n ++ e ++ s → c2.type = "SB_DFF" ++ n2 ++ e2 ++ s →
        is_ff c = true → is_ff c2 = true) := by
  have hprod : ∀ n ∈ (["", "N"] : List String), ∀ e ∈ (["", "E"] : List String),
      ∀ s ∈ (["", "SR", "R", "SS", "S"] : List String),
        "SB_DFF" ++ n ++ e ++ s ∈ ffTypeNames := by decide
  refine ⟨fun c => ⟨fun h => ?_, ?_⟩, rfl, by decide, fun c h => ?_, ?_⟩
  · have hm := (is_ff_iff_mem c).1 h
    have hall : ∀ t ∈ ffTypeNames, ∃ n ∈ (["", "N"] : List String),
        ∃ e ∈ (["", "E"] : List String), ∃ s ∈ (["", "SR", "R", "SS", "S"] : List String),
          t = "SB_DFF" ++ n ++ e ++ s := by decide
    exact hall _ hm
  · rintro ⟨n, hn, e, he, s, hs, ht⟩
    rw [is_ff_iff_mem, ht]
    exact hprod n hn e he s hs
  · have hsub : ∀ t ∈ ffProductNames, t ∈ ffTypeNames := by decide
    exact (is_ff_iff_mem c).2 (hsub _ h)
  · intro c c2 n _ e _ n2 hn2 e2 he2 s hs _ ht2 _
    rw [is_ff_iff_mem, ht2]
    exact hprod n2 hn2 e2 he2 s hs

/-- Witness of C10: SB_DFFSR and its negative-edge, clock-enabled sibling. -/
theorem is_ff_vocabulary_is_product_witness :
    is_ff ⟨"b", "SB_DFFNESR", [], []⟩ = true :=
  is_ff_vocabulary_is_product.2.2.2.2 ⟨"a", "SB_DFFSR", [], []⟩ ⟨"b", "SB_DFFNESR", [], []⟩
    "" (by decide) "" (by decide) "N" (by decide) "E" (by decide) "SR" (by decide)
    (by decide) (by decide) (by decide)

/-- C7: on a flip-flop donor and a logic-cell target, dff_to_lc with
pass_thru_lut true returns a target whose lookup table is the identity of its
first input and whose I0 is connected to the donor's D net; with pass_thru_lut
false (the default) it returns a target whose lookup-table parameter and
lookup-table inputs are as before, and the result does not depend on the
donor's D connection. -/
theorem dff_to_lc_data_path (arch : FusionArch) (dff lc : CellInfo)
    (hff : is_ff dff = true) (hlc : lc.type = "ICESTORM_LC") :
    (∃ lc2, dff_to_lc arch dff lc true = .ok lc2 ∧
      (∃ init, lc2.param "LUT_INIT" = some init ∧
        ∀ i0 i1 i2 i3 : Bool, lutEval init i0 i1 i2 i3 = i0) ∧
      lc2.conn "I0" = dff.conn "D") ∧
    (∃ lc2, dff_to_lc arch dff lc false = .ok lc2 ∧ dff_to_lc arch dff lc = .ok lc2 ∧
      lc2.param "LUT_INIT" = lc.param "LUT_INIT" ∧
      (∀ p ∈ (["I0", "I1", "I2", "I3"] : List IdString), lc2.conn p = lc.conn p) ∧
      ∀ dff2 : CellInfo, dff2.type = dff.type →
        (∀ p : IdString, p ≠ "D" → dff2.conn p = dff.conn p) →
        dff_to_lc arch dff2 lc false = .ok lc2) := by
  have hne : (lc.type != "ICESTORM_LC") = false := by simp [hlc]
  refine ⟨⟨_, by rw [dff_to_lc, hff, hne]; rfl, ⟨passThruInit, ?_, by decide⟩, ?_⟩,
    ⟨_, by rw [dff_to_lc, hff, hne]; rfl, by rw [dff_to_lc, hff, hne]; rfl, ?_, ?_, ?_⟩⟩
  · simp only [conn_connect, param_connect, conn_setParam, param_setParam, ↓reduceIte]
  · simp only [conn_connect, param_connect, conn_setParam, param_setParam, ↓reduceIte,
      String.reduceEq]
  · simp only [conn_connect, param_connect, conn_setParam,
      param_setParam, ↓reduceIte, String.reduceEq, Bool.false_eq_true]
  · intro p hp
    simp only [List.mem_cons, List.mem_singleton, List.not_mem_nil, or_false] at hp
    rcases hp with rfl | rfl | rfl | rfl <;>
      simp only [conn_connect, param_connect, conn_setParam,
        param_setParam, ↓reduceIte, String.reduceEq, Bool.false_eq_true]
  · intro dff2 ht hp
    have hff2 : is_ff dff2 = true := by
      rw [is_ff_iff_mem, ht]; exact (is_ff_iff_mem dff).1 hff
    rw [dff_to_lc, hff2, hne, ht, hp "C" (by decide), hp "E" (by decide), hp "R" (by decide),
      hp "S" (by decide), hp "Q" (by decide)]
    rfl

/-- Witness of C7: an SB_DFFER donor with D on net d0 and a logic cell whose
lookup table holds 0x8000. -/
theorem dff_to_lc_data_path_witness :
    (∃ lc2, dff_to_lc ⟨fun _ => ⟨.rising, .async, .high, .absent, .high⟩, "VCC"⟩
        ⟨"ff0", "SB_DFFER", [("C", "clk"), ("D", "d0"), ("Q", "q0")], []⟩
        ⟨"lc0", "ICESTORM_LC", [("I0", "a")], [("LUT_INIT", 32768)]⟩ true = .ok lc2 ∧
      (∃ init, lc2.param "LUT_INIT" = some init ∧
        ∀ i0 i1 i2 i3 : Bool, lutEval init i0 i1 i2 i3 = i0) ∧
      lc2.conn "I0" = some "d0") ∧
    (∃ lc2, dff_to_lc ⟨fun _ => ⟨.rising, .async, .high, .absent, .high⟩, "VCC"⟩
        ⟨"ff0", "SB_DFFER", [("C", "clk"), ("D", "d0"), ("Q", "q0")], []⟩
        ⟨"lc0", "ICESTORM_LC", [("I0", "a")], [("LUT_INIT", 32768)]⟩ false = .ok lc2 ∧
      lc2.param "LUT_INIT" = some 32768 ∧ lc2.conn "I0" = some "a") :=
  have h := dff_to_lc_data_path ⟨fun _ => ⟨.rising, .async, .high, .absent, .high⟩, "VCC"⟩
    ⟨"ff0", "SB_DFFER", [("C", "clk"), ("D", "d0"), ("Q", "q0")], []⟩
    ⟨"lc0", "ICESTORM_LC", [("I0", "a")], [("LUT_INIT", 32768)]⟩ (by decide) rfl
  ⟨h.1, h.2.imp fun _ hx => ⟨hx.1, hx.2.2.1, hx.2.2.2.1 "I0" (by decide)⟩⟩

/-- C8: two calls of create_ice_cell on the same design with the name left
at its default both succeed and give two cells, both registered in the design,
whose names are assigned (not empty) and distinct. -/
theorem create_ice_cell_auto_names_distinct (defaults : IdString → List (IdString × Nat))
    (d : Design) (t₁ t₂ : IdString) :
    ∃ c₁ d₁ c₂ d₂, create_ice_cell defaults d t₁ = .ok (c₁, d₁) ∧
      create_ice_cell defaults d₁ t₂ = .ok (c₂, d₂) ∧
      c₁.name ≠ c₂.name ∧ c₁.name ≠ "" ∧ c₂.name ≠ "" ∧
      c₁.type = t₁ ∧ c₂.type = t₂ ∧ c₁ ∈ d₂.cells ∧ c₂ ∈ d₂.cells := by
  obtain ⟨k₁, _, h₁⟩ := create_ice_cell_auto defaults d t₁
  obtain ⟨k₂, hk₂, h₂⟩ := create_ice_cell_auto defaults
    ⟨⟨autoName t₁ k₁, t₁, [], defaults t₁⟩ :: d.cells, k₁ + 1⟩ t₂
  refine ⟨_, _, _, _, h₁, h₂, ?_, autoName_ne_empty _ _, autoName_ne_empty _ _, rfl, rfl, ?_, ?_⟩
  · intro h
    apply hk₂
    simp only [Design.cellNames, List.map_cons, List.mem_cons]
    exact Or.inl h.symm
  · simp
  · simp

end Ice40
